import Mathlib

/-!
Verification development for the struct-tags field-validation utility
(`main.go`).  The Go source is shallowly embedded: runtime values carried in
`interface{}` become the sum type `Value`; Go's `(bool, error)` return pair
becomes `Bool × Option String`; a Go panic (failed type assertion,
`regexp.MustCompile` on a bad pattern) is modelled by `Option.none` at the
result of the whole call.  Machine integers become `Int` (the bound
comparisons in the source cannot overflow).  Go `len` counts bytes while
`String.length` counts characters; the two agree on the ASCII data used
throughout this repository.
-/

/-- A runtime value boxed in `interface{}`: the program stores `string` and
`int` fields; `other` stands for any value of a third dynamic type. -/
inductive Value where
  | int (n : Int)
  | str (s : String)
  | other
deriving DecidableEq

/-- The option bag (`type Option struct{min, max int; pattern string}`,
renamed: `Option` is taken by Lean).  The Go zero value is `⟨0, 0, ""⟩`. -/
structure Opt where
  min : Int := 0
  max : Int := 0
  pattern : String := ""
deriving DecidableEq

/-- Go `type OptionFunc func(*Option)`: a mutation of the option bag, rendered
as a function on `Opt`. -/
def OptionFunc := Opt → Opt

def WithMin (min : Int) : OptionFunc := fun o => { o with min := min }

def WithMax (max : Int) : OptionFunc := fun o => { o with max := max }

def WithPattern (pattern : String) : OptionFunc := fun o => { o with pattern := pattern }

/-- The loop `option := &Option{}; for _, opt := range opts { opt(option) }`
shared by every constructor. -/
def buildOption (opts : List OptionFunc) : Opt :=
  opts.foldl (fun o f => f o) {}

/-! A model of Go's `regexp` package (RE2 subset).

The repository compiles one pattern,
`\A[\w+\-.]+@[a-z\d\-]+(\.[a-z]+)*\.[a-z]+\z`, with `regexp.MustCompile`
and queries it with `MatchString`.  We model the RE2 syntax fragment the
repository exercises — literals, escapes `\A \z \w \d` and escaped
punctuation, character classes with ranges, grouping, alternation and the
`* + ?` repetitions — with a parser that rejects anything else, and give
matching semantics by Brzozowski derivatives.  `MatchString`'s unanchored
"contains a match" search is obtained by bracketing the subject string with
two sentinel characters (codes 1 and 2): `\A` and `\z` compile to
assertions recognising exactly those sentinels, ordinary classes never
match them, and the pattern is wrapped in leading/trailing `anyc*`. -/

/-- One member of a character class. -/
inductive CItem where
  | rng (lo hi : Char)
  | one (c : Char)
  | wordCls
  | digitCls
deriving DecidableEq

def citemMatch (c : Char) : CItem → Bool
  | .rng lo hi => decide (lo.toNat ≤ c.toNat) && decide (c.toNat ≤ hi.toNat)
  | .one a => c = a
  | .wordCls => c.isAlphanum || c = '_'
  | .digitCls => c.isDigit

/-- Regular expressions.  `bos`/`eos` are the compiled forms of `\A`/`\z`
(they recognise the start/end sentinel); `anyc` matches any character,
sentinels included, and only occurs in the search wrapper. -/
inductive Re where
  | emp
  | eps
  | cls (neg : Bool) (items : List CItem)
  | bos
  | eos
  | anyc
  | cat (a b : Re)
  | alt (a b : Re)
  | star (a : Re)
deriving DecidableEq

/-- Smart concatenation (keeps derivative sizes small; preserves the
denoted language). -/
def rcat : Re → Re → Re
  | .emp, _ => .emp
  | _, .emp => .emp
  | .eps, b => b
  | a, .eps => a
  | a, b => .cat a b

/-- Smart alternation. -/
def ralt : Re → Re → Re
  | .emp, b => b
  | a, .emp => a
  | a, b => .alt a b

/-- Smart Kleene star. -/
def rstar : Re → Re
  | .emp => .eps
  | .eps => .eps
  | .star a => .star a
  | a => .star a

def nullable : Re → Bool
  | .emp => false
  | .eps => true
  | .cls _ _ => false
  | .bos => false
  | .eos => false
  | .anyc => false
  | .cat a b => nullable a && nullable b
  | .alt a b => nullable a || nullable b
  | .star _ => true

/-- Start-of-text sentinel (not a valid subject character). -/
def sotChar : Char := Char.ofNat 1

/-- End-of-text sentinel. -/
def eotChar : Char := Char.ofNat 2

/-- Brzozowski derivative with respect to one character. -/
def rderiv (c : Char) : Re → Re
  | .emp => .emp
  | .eps => .emp
  | .cls neg items =>
      if c = sotChar ∨ c = eotChar then .emp
      else if (items.any (citemMatch c)) != neg then .eps else .emp
  | .bos => if c = sotChar then .eps else .emp
  | .eos => if c = eotChar then .eps else .emp
  | .anyc => .eps
  | .cat a b =>
      if nullable a then ralt (rcat (rderiv c a) b) (rderiv c b)
      else rcat (rderiv c a) b
  | .alt a b => ralt (rderiv c a) (rderiv c b)
  | .star a => rcat (rderiv c a) (.star a)

/-- Whole-word matching by iterated derivatives. -/
def reMatches (r : Re) (cs : List Char) : Bool :=
  nullable (cs.foldl (fun a c => rderiv c a) r)

/-- Go `Regexp.MatchString`: unanchored search, realised by bracketing the
subject with the sentinels and wrapping the pattern in `anyc*`. -/
def goMatchString (r : Re) (s : String) : Bool :=
  reMatches (rcat (.star .anyc) (rcat r (.star .anyc))) (sotChar :: s.data ++ [eotChar])

/-- Escapes legal outside a class: `\A`, `\z`, `\w`, `\d`, and `\`
followed by punctuation (a literal); `\` followed by any other letter or
digit is outside the modelled fragment. -/
def escRe (e : Char) : Option Re :=
  if e = 'A' then some .bos
  else if e = 'z' then some .eos
  else if e = 'w' then some (.cls false [.wordCls])
  else if e = 'd' then some (.cls false [.digitCls])
  else if e.isAlphanum then none
  else some (.cls false [.one e])

/-- Escapes legal inside a class. -/
def escCItem (e : Char) : Option CItem :=
  if e = 'w' then some .wordCls
  else if e = 'd' then some .digitCls
  else if e.isAlphanum then none
  else some (.one e)

/-- Class body: items up to the closing `]`. -/
def pClassItems : List Char → Option (List CItem × List Char)
  | ']' :: rest => some ([], rest)
  | '\\' :: e :: rest =>
      match escCItem e, pClassItems rest with
      | some it, some (its, r2) => some (it :: its, r2)
      | _, _ => none
  | a :: '-' :: b :: rest =>
      if b = ']' then some ([.one a, .one '-'], rest)
      else
        match pClassItems rest with
        | some (its, r2) => some (.rng a b :: its, r2)
        | none => none
  | a :: rest =>
      match pClassItems rest with
      | some (its, r2) => some (.one a :: its, r2)
      | none => none
  | [] => none

/-- A character class `[...]`, entered after the `[`. -/
def pClass (cs : List Char) : Option (Re × List Char) :=
  match cs with
  | '^' :: rest =>
      match pClassItems rest with
      | some (its, r2) => some (.cls true its, r2)
      | none => none
  | _ =>
      match pClassItems cs with
      | some (its, r2) => some (.cls false its, r2)
      | none => none

/-- Postfix repetition operators applied to an atom. -/
def pPost : List Char → Re → Re × List Char
  | '*' :: rest, r => pPost rest (rstar r)
  | '+' :: rest, r => pPost rest (rcat r (rstar r))
  | '?' :: rest, r => pPost rest (ralt r .eps)
  | cs, r => (r, cs)

mutual

/-- Alternation level: `seq ('|' seq)*`. -/
def pAlt : Nat → List Char → Option (Re × List Char)
  | 0, _ => none
  | f + 1, cs =>
      match pSeq f cs with
      | none => none
      | some (r, rest) =>
          match rest with
          | '|' :: rest2 =>
              match pAlt f rest2 with
              | some (r2, rest3) => some (ralt r r2, rest3)
              | none => none
          | _ => some (r, rest)

/-- Concatenation level: a (possibly empty) run of repeated atoms. -/
def pSeq : Nat → List Char → Option (Re × List Char)
  | 0, _ => none
  | f + 1, cs =>
      match cs with
      | [] => some (.eps, [])
      | ')' :: _ => some (.eps, cs)
      | '|' :: _ => some (.eps, cs)
      | _ =>
          match pAtom f cs with
          | none => none
          | some (r, rest) =>
              let (r2, rest2) := pPost rest r
              match pSeq f rest2 with
              | none => none
              | some (r3, rest3) => some (rcat r2 r3, rest3)

/-- One atom: a group, a class, an escape or a literal. -/
def pAtom : Nat → List Char → Option (Re × List Char)
  | 0, _ => none
  | f + 1, cs =>
      match cs with
      | [] => none
      | '(' :: rest =>
          match pAlt f rest with
          | some (r, ')' :: rest2) => some (r, rest2)
          | _ => none
      | '[' :: rest => pClass rest
      | '\\' :: e :: rest =>
          match escRe e with
          | some r => some (r, rest)
          | none => none
      | '\\' :: [] => none
      | ')' :: _ => none
      | '|' :: _ => none
      | '*' :: _ => none
      | '+' :: _ => none
      | '?' :: _ => none
      | '.' :: rest => some (.cls true [.one (Char.ofNat 10)], rest)
      | c :: rest => some (.cls false [.one c], rest)

end

/-- Go `regexp.Compile`: parse the whole pattern or fail.  The fuel bound is
generous: every parser call consumes a unit and the call count is well
under quadratic in the pattern length. -/
def reCompile (p : String) : Option Re :=
  match pAlt ((p.data.length + 2) * (p.data.length + 2) * 4) p.data with
  | some (r, []) => some r
  | _ => none

/-! Constants and rule variants. -/

/-- Go `DefaultMaxValue = math.MaxInt8`. -/
def DefaultMaxValue : Int := 127

/-- Go `DefaultMinValue = math.MinInt8`. -/
def DefaultMinValue : Int := -128

/-- Go `var tagName` — the struct-tag key read by the walker. -/
def tagName : String := "validate"

/-- Go `var pattern` — the package-wide default email pattern, reproduced
verbatim from the source. -/
def pattern : String := r"\A[\w+\-.]+@[a-z\d\-]+(\.[a-z]+)*\.[a-z]+\z"

structure DefaultValidator where
deriving DecidableEq

structure StringValidator where
  min : Int
  max : Int
deriving DecidableEq

structure NumberValidator where
  min : Int
  max : Int
deriving DecidableEq

structure EmailValidator where
  pattern : String
deriving DecidableEq

/-- The closed sum of validator implementations the registry produces. -/
inductive Validator where
  | dflt (v : DefaultValidator)
  | str (v : StringValidator)
  | num (v : NumberValidator)
  | email (v : EmailValidator)
deriving DecidableEq

def newDefaultValidator (_opts : List OptionFunc) : Validator :=
  .dflt {}

def newStringValidator (opts : List OptionFunc) : Validator :=
  let option := buildOption opts
  .str { min := option.min, max := option.max }

def newNumberValidator (opts : List OptionFunc) : Validator :=
  let option := buildOption opts
  .num { min := option.min, max := option.max }

def newEmailValidator (opts : List OptionFunc) : Validator :=
  let option := buildOption opts
  .email { pattern := option.pattern }

def DefaultValidator.Validate (_d : DefaultValidator) (_val : Value) :
    Option (Bool × Option String) :=
  some (true, none)

/-- Diagnostic of `StringValidator.Validate`, format string
`"string length %d, allowed range [ %d,%d ]"`. -/
def strRangeMsg (n min max : Int) : String :=
  "string length " ++ toString n ++ ", allowed range [ " ++ toString min ++
    "," ++ toString max ++ " ]"

def StringValidator.Validate (s : StringValidator) (val : Value) :
    Option (Bool × Option String) :=
  match val with
  | .str str =>
      let strLen : Int := str.length
      if strLen < s.min ∨ strLen > s.max then
        some (false, some (strRangeMsg strLen s.min s.max))
      else some (true, none)
  | _ => some (false, some ("not of string type"))

/-- Diagnostic of `NumberValidator.Validate`, format string
`"interger %d, allowed range [ %d,%d]"` (typo and spacing as in source). -/
def numRangeMsg (n min max : Int) : String :=
  "interger " ++ toString n ++ ", allowed range [ " ++ toString min ++
    "," ++ toString max ++ "]"

def NumberValidator.Validate (n : NumberValidator) (val : Value) :
    Option (Bool × Option String) :=
  match val with
  | .int num =>
      if num < n.min ∨ num > n.max then
        some (false, some (numRangeMsg num n.min n.max))
      else some (true, none)
  | _ => some (false, some ("not of int type"))

/-- The source first runs `regexp.MustCompile(e.pattern)` (panic on a
non-compiling pattern), then the unchecked assertion `email.(string)`
(panic on a non-string value); both panics are `none` here. -/
def EmailValidator.Validate (e : EmailValidator) (email : Value) :
    Option (Bool × Option String) :=
  match reCompile e.pattern with
  | none => none
  | some regExp =>
      match email with
      | .str s =>
          if goMatchString regExp s then some (true, none)
          else some (false, some ("not a valid email address"))
      | _ => none

def Validator.Validate : Validator → Value → Option (Bool × Option String)
  | .dflt d, v => d.Validate v
  | .str s, v => s.Validate v
  | .num n, v => n.Validate v
  | .email e, v => e.Validate v

/-- The registry as populated by `init()`:
default, int, string, email. -/
def ValidatorFactory (name : String) : Option (List OptionFunc → Validator) :=
  if name = "default" then some newDefaultValidator
  else if name = "int" then some newNumberValidator
  else if name = "string" then some newStringValidator
  else if name = "email" then some newEmailValidator
  else none

/-! Tag resolution: `GetValidatorFromTag`. -/

/-- Go `strings.Split` on a separator character (`strings.Split(tag, ",")`);
never returns the empty list, and `splitOn sep [] = [[]]` as in Go. -/
def splitOn (sep : Char) : List Char → List (List Char)
  | [] => [[]]
  | c :: cs =>
      let r := splitOn sep cs
      if c = sep then [] :: r
      else
        match r with
        | [] => [[c]]
        | g :: gs => (c :: g) :: gs

/-- Go `strings.Join(·, ",")` on character lists. -/
def joinComma : List (List Char) → List Char
  | [] => []
  | [x] => x
  | x :: xs => x ++ ',' :: joinComma xs

/-- Exact-match scan of a literal run of format characters (`Sscanf`
matches a non-space format character against the identical input
character). -/
def pLit : List Char → List Char → Option (List Char)
  | [], cs => some cs
  | _ :: _, [] => none
  | l :: ls, c :: cs => if c = l then pLit ls cs else none

/-- Go's `%d` verb discards leading spaces and tabs. -/
def skipSp : List Char → List Char
  | ' ' :: cs => skipSp cs
  | '\t' :: cs => skipSp cs
  | cs => cs

def digitsToNat (ds : List Char) : Nat :=
  ds.foldl (fun a c => a * 10 + (c.toNat - 48)) 0

/-- One or more decimal digits. -/
def pNat (cs : List Char) : Option (Nat × List Char) :=
  let p := cs.span Char.isDigit
  if p.1 = [] then none else some (digitsToNat p.1, p.2)

/-- Go's `%d` verb: optional sign, one or more digits. -/
def pInt (cs : List Char) : Option (Int × List Char) :=
  match skipSp cs with
  | '-' :: rest =>
      match pNat rest with
      | some (n, r) => some (-(n : Int), r)
      | none => none
  | '+' :: rest =>
      match pNat rest with
      | some (n, r) => some ((n : Int), r)
      | none => none
  | cs' =>
      match pNat cs' with
      | some (n, r) => some ((n : Int), r)
      | none => none

/-- Go `fmt.Sscanf(s, "min=%d,max=%d", &min, &max)` with the error ignored:
scanning stops at the first mismatch and every variable not yet assigned
keeps its zero value. -/
def sscanfMinMax (cs : List Char) : Int × Int :=
  match pLit ("min=".data) cs with
  | none => (0, 0)
  | some r1 =>
      match pInt r1 with
      | none => (0, 0)
      | some (mn, r2) =>
          match pLit (",max=".data) r2 with
          | none => (mn, 0)
          | some r3 =>
              match pInt r3 with
              | none => (mn, 0)
              | some (mx, _) => (mn, mx)

/-- `strings.Split(tag, ",")`. -/
def tagArgs (tag : String) : List (List Char) :=
  splitOn ',' tag.data

def GetValidatorFromTag (tag : String) : Except String Validator :=
  match tagArgs tag with
  | [] => .error ("validator type not present")
  | a0 :: rest =>
      match ValidatorFactory (String.mk a0) with
      | none => .error ("validator for " ++ String.mk a0 ++ " not present")
      | some validator =>
          let mm : Int × Int :=
            if rest = [] then (DefaultMinValue, DefaultMaxValue)
            else sscanfMinMax (joinComma rest)
          .ok (validator [WithMin mm.1, WithMax mm.2, WithPattern pattern])

/-! The record walker `ValidateUser`.

A record is rendered, as Go's `reflect` presents it, as its fields in
declaration order, each a (tag value, boxed field value) pair.  The walker
is parametric in the resolver and in the validator dispatch so that
late-registered custom validators are covered by the same definition. -/

/-- One reflected field: its `validate` tag and its boxed value. -/
abbrev RField := String × Value

/-- The body of one loop iteration: the diagnostics (0 or 1) this field
appends, or `none` when the validator panics. -/
def walkField {V : Type} (resolve : String → Except String V)
    (validate : V → Value → Option (Bool × Option String)) (f : RField) :
    Option (List String) :=
  if f.1 = "" ∨ f.1 = "_" then some []
  else
    match resolve f.1 with
    | .error e => some [e]
    | .ok vd =>
        match validate vd f.2 with
        | none => none
        | some (valid, err) =>
            match err, valid with
            | some e, false => some [e]
            | _, _ => some []

/-- The loop with its `errs` accumulator. -/
def walkAux {V : Type} (resolve : String → Except String V)
    (validate : V → Value → Option (Bool × Option String)) :
    List RField → List String → Option (List String)
  | [], errs => some errs
  | f :: fs, errs =>
      match walkField resolve validate f with
      | none => none
      | some ds => walkAux resolve validate fs (errs ++ ds)

/-- Go `ValidateUser` on the reflected field list of an arbitrary record. -/
def ValidateUser (fields : List RField) : Option (List String) :=
  walkAux GetValidatorFromTag Validator.Validate fields []

/-- The walker with the record state threaded explicitly through every
iteration: each step reads the current field and passes the record on.
Its first component is the record as left behind by the pass. -/
def walkAuxW {V : Type} (resolve : String → Except String V)
    (validate : V → Value → Option (Bool × Option String)) :
    List RField → List String → List RField × Option (List String)
  | [], errs => ([], some errs)
  | f :: fs, errs =>
      match walkField resolve validate f with
      | none => (f :: fs, none)
      | some ds =>
          let r := walkAuxW resolve validate fs (errs ++ ds)
          (f :: r.1, r.2)

def ValidateUserW (fields : List RField) : List RField × Option (List String) :=
  walkAuxW GetValidatorFromTag Validator.Validate fields []

/-! The demo record. -/

/-- Go `type User struct` with tags `string`, `email`, `int,min=18,max=30`,
`string,min=10,max=13`. -/
structure User where
  Name : String
  Email : String
  Age : Int
  ContactNo : String
deriving DecidableEq

/-- The reflected view of a `User`: fields in declaration order with their
`validate` tags. -/
def userFields (u : User) : List RField :=
  [("string", .str u.Name),
   ("email", .str u.Email),
   ("int,min=18,max=30", .int u.Age),
   ("string,min=10,max=13", .str u.ContactNo)]

/-- The record built in `main()`. -/
def mainUser : User :=
  { Name := "oshank", Email := "oshankfriends@gmail.com", Age := 85,
    ContactNo := "7065349354" }

/-! Structural lemmas about the walker. -/

section WalkerLemmas

variable {V : Type} (r : String → Except String V)
  (v : V → Value → Option (Bool × Option String))

lemma walkAux_append (fs : List RField) (errs : List String) :
    walkAux r v fs errs = (walkAux r v fs []).map (fun ds => errs ++ ds) := by
  induction fs generalizing errs with
  | nil => simp [walkAux]
  | cons f fs ih =>
      cases h : walkField r v f with
      | none => simp [walkAux, h]
      | some ds =>
          simp only [walkAux, h]
          rw [ih (errs ++ ds), ih ([] ++ ds)]
          cases walkAux r v fs [] <;> simp [List.append_assoc]

lemma walkAux_split (xs ys : List RField) :
    walkAux r v (xs ++ ys) [] =
      (walkAux r v xs []).bind (fun a => (walkAux r v ys []).map (fun b => a ++ b)) := by
  induction xs with
  | nil =>
      cases h : walkAux r v ys [] <;> simp [walkAux, h]
  | cons f xs ih =>
      cases h : walkField r v f with
      | none => simp [walkAux, h]
      | some ds =>
          simp only [List.cons_append, walkAux, h, List.append_eq]
          rw [walkAux_append r v (xs ++ ys) ([] ++ ds), walkAux_append r v xs ([] ++ ds), ih]
          cases walkAux r v xs [] with
          | none => rfl
          | some a =>
              cases walkAux r v ys [] <;> simp [List.append_assoc]

lemma walkAux_eq_mapM (fs : List RField) :
    walkAux r v fs [] = (fs.mapM (walkField r v)).map List.flatten := by
  induction fs with
  | nil => rw [List.mapM_nil]; simp [walkAux]
  | cons f fs ih =>
      rw [List.mapM_cons]
      cases h : walkField r v f with
      | none => simp [walkAux, h]
      | some ds =>
          simp only [walkAux, h]
          rw [walkAux_append r v fs ([] ++ ds), ih]
          cases fs.mapM (walkField r v) <;> simp

lemma walkAuxW_spec (fs : List RField) (errs : List String) :
    (walkAuxW r v fs errs).1 = fs ∧ (walkAuxW r v fs errs).2 = walkAux r v fs errs := by
  induction fs generalizing errs with
  | nil => simp [walkAuxW, walkAux]
  | cons f fs ih =>
      cases h : walkField r v f with
      | none => simp [walkAuxW, walkAux, h]
      | some ds =>
          simp [walkAuxW, walkAux, h, (ih (errs ++ ds)).1, (ih (errs ++ ds)).2]

end WalkerLemmas

/-! Claim theorems. -/

/-- Claim C1 (code bug): the claim requires every rule variant to turn a
runtime-type mismatch into a validation error and never panic.  The int,
string and default variants comply, but `EmailValidator.Validate` runs the
unchecked assertion `email.(string)` and therefore panics (result `none`)
on the non-string value `85`, exactly as invoked by the resolver with the
default pattern. -/
theorem email_type_mismatch_panics :
    Validator.Validate
      (newEmailValidator [WithMin DefaultMinValue, WithMax DefaultMaxValue, WithPattern pattern])
      (Value.int 85) = none ∧
    NumberValidator.Validate ⟨18, 30⟩ (Value.str ("85")) = some (false, some ("not of int type")) ∧
    StringValidator.Validate ⟨10, 13⟩ (Value.int 7) = some (false, some ("not of string type")) ∧
    DefaultValidator.Validate {} Value.other = some (true, none) := by
  refine ⟨by decide, rfl, rfl, rfl⟩

/-- Claim C2, counterexample: the pattern `"("` does not compile, yet
`newEmailValidator` still constructs a validator — its signature
`func(...OptionFunc) Validator` has no error channel at all, so a
non-compiling pattern cannot abort validator construction. -/
theorem bad_pattern_construction_succeeds :
    reCompile ("(") = none ∧
    newEmailValidator [WithPattern ("(")] = Validator.email ⟨"("⟩ :=
  ⟨by decide, rfl⟩

/-- Claim C2, amended: a pattern that fails to compile leaves construction
untouched and instead makes every later `Validate` call panic fatally at
the `regexp.MustCompile` step (`none`), before any per-value check — so the
failure is neither silently swallowed nor reported as a per-value
validation failure, but it surfaces at validation time, not at
construction. -/
theorem bad_pattern_panics_at_validate (opts : List OptionFunc) (val : Value)
    (h : reCompile (buildOption opts).pattern = none) :
    newEmailValidator opts = Validator.email ⟨(buildOption opts).pattern⟩ ∧
    Validator.Validate (newEmailValidator opts) val = none := by
  refine ⟨rfl, ?_⟩
  simp [newEmailValidator, Validator.Validate, EmailValidator.Validate, h]

/-- Witness for the amended C2 theorem at the concrete pattern `"("`. -/
theorem bad_pattern_panics_at_validate_witness :
    newEmailValidator [WithPattern ("(")] = Validator.email ⟨"("⟩ ∧
    Validator.Validate (newEmailValidator [WithPattern ("(")]) (Value.str ("a@b.cd")) = none :=
  bad_pattern_panics_at_validate [WithPattern ("(")] (Value.str ("a@b.cd")) (by decide)

/-- Claim C3, counterexample: for the registered rule `int` with malformed
clause `min=5,banana`, resolution succeeds but the constructed validator
has `min = 5`, not `0`: `Sscanf` assigns `min` before hitting the
mismatch, so the two bounds are not both left at their zero value. -/
theorem malformed_clause_partial_bounds :
    GetValidatorFromTag ("int,min=5,banana") = Except.ok (Validator.num ⟨5, 0⟩) ∧
    ((5 : Int) = 0) = False :=
  ⟨rfl, by simp⟩

/-- Claim C3, amended: resolution of a registered rule name never fails
whatever the remaining tokens are, and each bound is left at its zero
value from the first scan mismatch on; in particular a clause that
mismatches the format from the start (it does not even begin with
`min=`) leaves `min` and `max` both `0`. -/
theorem malformed_clause_zero_bounds (tag : String) (a0 : List Char)
    (rest : List (List Char)) (f : List OptionFunc → Validator)
    (h1 : tagArgs tag = a0 :: rest)
    (h2 : ValidatorFactory (String.mk a0) = some f)
    (h3 : rest ≠ [])
    (h4 : pLit ("min=".data) (joinComma rest) = none) :
    GetValidatorFromTag tag = Except.ok (f [WithMin 0, WithMax 0, WithPattern pattern]) := by
  unfold GetValidatorFromTag
  rw [h1]
  simp only [h2, h3, sscanfMinMax, h4]
  rfl

/-- Witness for the amended C3 theorem at the concrete tag `int,banana`. -/
theorem malformed_clause_zero_bounds_witness :
    GetValidatorFromTag ("int,banana") =
      Except.ok (newNumberValidator [WithMin 0, WithMax 0, WithPattern pattern]) :=
  malformed_clause_zero_bounds ("int,banana") ("int".data) [("banana".data)]
    newNumberValidator (by decide) rfl (by decide) (by decide)

/-- Claim C4: validating the `main()` record against its four annotations
yields exactly one diagnostic, the out-of-range error for `Age` (85 with
bounds 18/30); `Name`, `Email` and `ContactNo` contribute nothing. -/
theorem main_scenario_exactly_age_error :
    ValidateUser (userFields mainUser) = some [("interger 85, allowed range [ 18,30]")] := by
  decide

/-- Claim C5: a bare registered rule name resolves with the 8-bit signed
integer default bounds −128/127 and the package-wide default email
pattern handed to the constructor. -/
theorem bare_rule_default_bounds (name : String) (f : List OptionFunc → Validator)
    (h : ValidatorFactory name = some f) :
    GetValidatorFromTag name =
      Except.ok (f [WithMin DefaultMinValue, WithMax DefaultMaxValue, WithPattern pattern]) ∧
    DefaultMinValue = -128 ∧ DefaultMaxValue = 127 := by
  refine ⟨?_, rfl, rfl⟩
  by_cases h1 : name = "default"
  · subst h1
    obtain rfl : newDefaultValidator = f :=
      Option.some.inj ((rfl : ValidatorFactory ("default") = some newDefaultValidator).symm.trans h)
    rfl
  · by_cases h2 : name = "int"
    · subst h2
      obtain rfl : newNumberValidator = f :=
        Option.some.inj ((rfl : ValidatorFactory ("int") = some newNumberValidator).symm.trans h)
      rfl
    · by_cases h3 : name = "string"
      · subst h3
        obtain rfl : newStringValidator = f :=
          Option.some.inj ((rfl : ValidatorFactory ("string") = some newStringValidator).symm.trans h)
        rfl
      · by_cases h4 : name = "email"
        · subst h4
          obtain rfl : newEmailValidator = f :=
            Option.some.inj ((rfl : ValidatorFactory ("email") = some newEmailValidator).symm.trans h)
          rfl
        · unfold ValidatorFactory at h
          simp [h1, h2, h3, h4] at h

/-- Witness for C5 at the registered rule name `int`. -/
theorem bare_rule_default_bounds_witness :
    GetValidatorFromTag ("int") =
      Except.ok (newNumberValidator [WithMin DefaultMinValue, WithMax DefaultMaxValue, WithPattern pattern]) ∧
    DefaultMinValue = -128 ∧ DefaultMaxValue = 127 :=
  bare_rule_default_bounds ("int") newNumberValidator rfl

/-- Claim C6: an annotation whose first comma-separated token is not a
registered rule name makes resolution fail with the unknown-rule error
naming that token, and the walker appends exactly that one diagnostic for
the field while the fields before and after it are processed normally.
(The annotation must not be empty or the skip sentinel `_`, which the
walker skips before resolution.) -/
theorem unknown_rule_one_diagnostic (xs ys : List RField) (tag : String)
    (val : Value) (a0 : List Char) (rest : List (List Char))
    (h1 : tag ≠ "") (h2 : tag ≠ "_")
    (h3 : tagArgs tag = a0 :: rest)
    (h4 : ValidatorFactory (String.mk a0) = none) :
    ValidateUser (xs ++ (tag, val) :: ys) =
      (ValidateUser xs).bind (fun a => (ValidateUser ys).map
        (fun b => a ++ ("validator for " ++ String.mk a0 ++ " not present") :: b)) := by
  have hf : walkField GetValidatorFromTag Validator.Validate (tag, val) =
      some [("validator for " ++ String.mk a0 ++ " not present")] := by
    unfold walkField
    rw [if_neg (by simp [h1, h2])]
    unfold GetValidatorFromTag
    rw [h3]
    simp only [h4]
  unfold ValidateUser
  rw [walkAux_split]
  have hmid : walkAux GetValidatorFromTag Validator.Validate ((tag, val) :: ys) [] =
      (walkAux GetValidatorFromTag Validator.Validate ys []).map
        (fun b => ("validator for " ++ String.mk a0 ++ " not present") :: b) := by
    simp only [walkAux, hf]
    rw [walkAux_append GetValidatorFromTag Validator.Validate ys
      ([] ++ [("validator for " ++ String.mk a0 ++ " not present")])]
    cases walkAux GetValidatorFromTag Validator.Validate ys [] <;> simp
  rw [hmid]
  cases walkAux GetValidatorFromTag Validator.Validate xs [] with
  | none => rfl
  | some a =>
      cases walkAux GetValidatorFromTag Validator.Validate ys [] <;> simp

/-- Witness for C6: the annotation `bogus` on a first field, followed by a
well-formed field that is still processed. -/
theorem unknown_rule_one_diagnostic_witness :
    ValidateUser ([] ++ ("bogus", Value.int 1) :: [("int,min=18,max=30", Value.int 20)]) =
      (ValidateUser []).bind (fun a => (ValidateUser [("int,min=18,max=30", Value.int 20)]).map
        (fun b => a ++ ("validator for " ++ String.mk ("bogus".data) ++ " not present") :: b)) :=
  unknown_rule_one_diagnostic [] [("int,min=18,max=30", Value.int 20)] ("bogus")
    (Value.int 1) ("bogus".data) [] (by decide) (by decide) (by decide) rfl

/-- Claim C7: a field whose annotation is empty or the skip sentinel `_`
contributes nothing to the walk — removing it changes nothing, whatever
value it holds — and the error sequence is the in-order concatenation of
the per-field diagnostics, so diagnostics appear in field-declaration
order. -/
theorem skip_fields_and_ordering :
    (∀ (xs ys : List RField) (val : Value) (tag : String), tag = "" ∨ tag = "_" →
        ValidateUser (xs ++ (tag, val) :: ys) = ValidateUser (xs ++ ys)) ∧
    (∀ fields : List RField,
        ValidateUser fields =
          (fields.mapM (walkField GetValidatorFromTag Validator.Validate)).map List.flatten) := by
  constructor
  · intro xs ys val tag h
    have hf : walkField GetValidatorFromTag Validator.Validate (tag, val) = some [] := by
      rcases h with h | h <;> subst h <;> rfl
    unfold ValidateUser
    rw [walkAux_split, walkAux_split]
    have hmid : walkAux GetValidatorFromTag Validator.Validate ((tag, val) :: ys) [] =
        walkAux GetValidatorFromTag Validator.Validate ys [] := by
      simp [walkAux, hf]
    rw [hmid]
  · intro fields
    exact walkAux_eq_mapM GetValidatorFromTag Validator.Validate fields

/-- Witness for C7: a `_`-annotated field contributes nothing. -/
theorem skip_fields_and_ordering_witness :
    ValidateUser ([("string", Value.str ("ab"))] ++ ("_", Value.int 3) :: []) =
      ValidateUser ([("string", Value.str ("ab"))] ++ []) :=
  skip_fields_and_ordering.1 [("string", Value.str ("ab"))] [] (Value.int 3) ("_") (Or.inr rfl)

/-- Claim C8: the integer rule passes exactly the values within
min/max inclusive; both boundary values pass (for coherent bounds), and
the off-by-one values fail with the diagnostic echoing value and bounds. -/
theorem int_rule_range (mn mx v : Int) :
    (NumberValidator.Validate ⟨mn, mx⟩ (Value.int v) = some (true, none) ↔ mn ≤ v ∧ v ≤ mx) ∧
    (mn ≤ mx → NumberValidator.Validate ⟨mn, mx⟩ (Value.int mn) = some (true, none) ∧
               NumberValidator.Validate ⟨mn, mx⟩ (Value.int mx) = some (true, none)) ∧
    NumberValidator.Validate ⟨mn, mx⟩ (Value.int (mn - 1)) =
      some (false, some (numRangeMsg (mn - 1) mn mx)) ∧
    NumberValidator.Validate ⟨mn, mx⟩ (Value.int (mx + 1)) =
      some (false, some (numRangeMsg (mx + 1) mn mx)) := by
  refine ⟨?_, fun h => ⟨?_, ?_⟩, ?_, ?_⟩ <;>
    simp only [NumberValidator.Validate] <;> split <;>
    simp_all <;> omega

/-- Witness for C8 with bounds 18/30 and value 18. -/
theorem int_rule_range_witness :
    (18 : Int) ≤ 30 ∧ NumberValidator.Validate ⟨18, 30⟩ (Value.int 18) = some (true, none) :=
  ⟨by decide, ((int_rule_range 18 30 18).2.1 (by decide)).1⟩

/-- Claim C9: a validation pass never mutates the record: the walker with
the record state threaded through every iteration returns the field list
unchanged, while producing exactly the diagnostics of `ValidateUser`. -/
theorem walker_never_mutates (fields : List RField) :
    (ValidateUserW fields).1 = fields ∧ (ValidateUserW fields).2 = ValidateUser fields :=
  walkAuxW_spec GetValidatorFromTag Validator.Validate fields []

/-- Claim C10: the walker appends a diagnostic for a field only when the
resolved validator returns valid = false together with a non-nil error;
any validator result with valid = true or with a nil error — including
results of custom-registered validators such as (false, nil) or
(true, non-nil) — appends nothing. -/
theorem diagnostic_append_guard {V : Type} (resolve : String → Except String V)
    (validate : V → Value → Option (Bool × Option String))
    (tag : String) (val : Value) (vd : V) (valid : Bool) (err : Option String)
    (h1 : tag ≠ "") (h2 : tag ≠ "_")
    (h3 : resolve tag = Except.ok vd)
    (h4 : validate vd val = some (valid, err)) :
    (valid = false → ∀ e, err = some e → walkField resolve validate (tag, val) = some [e]) ∧
    (valid = true ∨ err = none → walkField resolve validate (tag, val) = some []) := by
  have hne : ¬((tag, val).1 = "" ∨ (tag, val).1 = "_") := by simp [h1, h2]
  constructor
  · rintro rfl e rfl
    simp [walkField, hne, h3, h4]
  · rintro (rfl | rfl)
    · cases err <;> simp [walkField, hne, h3, h4]
    · cases valid <;> simp [walkField, hne, h3, h4]

/-- Witness for C10: a custom validator answering (false, nil) yields no
diagnostic. -/
theorem diagnostic_append_guard_witness :
    walkField (fun _ => Except.ok ()) (fun _ _ => some (false, (none : Option String)))
      ("custom", Value.other) = some [] :=
  (diagnostic_append_guard (fun _ => Except.ok ())
    (fun _ _ => some (false, (none : Option String))) ("custom") Value.other () false none
    (by decide) (by decide) rfl rfl).2 (Or.inr rfl)
